import Mathlib

/-!
Verification of the polls application (polls/models.py, polls/views.py, polls/forms.py).

Shallow embedding of the domain layer of a small Django polling site:
questions with a bounded lifetime, choices with running tallies, one vote
per (user, question) enforced by a `unique_together` constraint, result
percentages, question creation with up to three initial choices, and
profile/account deletion.

Modelling conventions:
* Timestamps are natural numbers counting microseconds since the epoch
  (Django `DateTimeField` values carry microsecond precision).
* Database tables are lists of records; a row's `id` plays the role of the
  primary key.
* Each Django ORM call (`objects.create`, `save`, `delete`) is a pure state
  transformer on the `DB` record.  `views.vote` wraps no transaction around
  its two writes, so the state after the `Vote` insert and before the
  tally increment is modelled explicitly (`voteInsert`, `choiceIncrSave`).
-/

namespace Polls

/-- Microseconds in one second. -/
abbrev usPerSec : Nat := 1000000

/-- Microseconds in one day (`datetime.timedelta(days=1)`). -/
abbrev usPerDay : Nat := 86400000000

/-- Model `polls.models.Question`: `question_text`, `pub_date` (set once, at
creation), `lifespan_days` (positive integer, default 7).  The optional
image field plays no role in any claim and is omitted. -/
structure Question where
  id : Nat
  question_text : String
  pub_date : Nat
  lifespan_days : Nat
deriving DecidableEq, Repr

/-- Model `polls.models.Choice`: belongs to one `Question` (foreign key stored as
the question's id), carries `choice_text` and the running tally `votes`
(Django `IntegerField`, hence `Int`). -/
structure Choice where
  id : Nat
  question : Nat
  choice_text : String
  votes : Int
deriving DecidableEq, Repr

/-- Model `polls.models.Vote`: references a user, a question and a choice by id.
`Meta.unique_together = ('user', 'question')` is a storage-level constraint;
its semantics appear in `castVote`, where the insert fails (IntegrityError)
exactly when a row with the same (user, question) pair already exists. -/
structure Vote where
  user : Nat
  question : Nat
  choice : Nat
deriving DecidableEq, Repr

/-- The relational store: the three tables the claims are about. -/
structure DB where
  questions : List Question
  choices : List Choice
  votes : List Vote
deriving DecidableEq, Repr

/-- The moment the question's lifetime ends: `pub_date + timedelta(days=lifespan_days)`. -/
def expiry (q : Question) : Nat := q.pub_date + q.lifespan_days * usPerDay

/-- Method `Question.is_active` from `polls/models.py`:
`now <= self.pub_date + datetime.timedelta(days=self.lifespan_days)`. -/
def Question.is_active (q : Question) (now : Nat) : Bool :=
  now ≤ q.pub_date + q.lifespan_days * usPerDay

/-- Queryset `question.choice_set.all()`: the choices of a question, in insertion
order (list order models the table's insertion order). -/
def choice_set (db : DB) (qid : Nat) : List Choice :=
  db.choices.filter (fun c => c.question == qid)

/-- The SQL predicate of `IndexView.get_queryset`
(`datetime(pub_date, '+' || lifespan_days || ' days') > %s` with
`%s = now.strftime('%Y-%m-%d %H:%M:%S.%f')`).  SQLite's `datetime()` prints
whole seconds only, so the left side is `expiry q` truncated to the second,
while the right side keeps its microsecond fraction; the two time strings
compare lexicographically, which on a whole-second string versus a
fractional-second string amounts to comparing the second-truncated values
strictly (a whole-second string is a proper prefix, hence strictly smaller,
whenever the truncated seconds agree).  Hence:
row kept iff `expiry q / usPerSec > now / usPerSec`. -/
def dbActiveWhere (q : Question) (now : Nat) : Bool :=
  now / usPerSec < expiry q / usPerSec

/-- Descending `pub_date` ordering used by `order_by('-pub_date')`. -/
def pubDateGe (a b : Question) : Prop := b.pub_date ≤ a.pub_date

instance : DecidableRel pubDateGe := fun a b => Nat.decLe b.pub_date a.pub_date

/-- View queryset `IndexView.get_queryset`: active-question filter evaluated in the
database, then `order_by('-pub_date')`. -/
def IndexView_get_queryset (db : DB) (now : Nat) : List Question :=
  List.insertionSort pubDateGe (db.questions.filter (fun q => dbActiveWhere q now))

/-- The user-visible outcome of `views.vote`: each constructor is one of the
function's return paths (a 404, a redirect with a message, or a re-rendered
form).  The `alreadyVoted` path issues the fixed warning
"Вы уже голосовали в этом опросе." and redirects to the results page; it
carries no data about the stored vote. -/
inductive VoteOutcome where
  | notFound
  | votingClosed
  | unauthenticated
  | invalidChoice
  | success
  | alreadyVoted
deriving DecidableEq, Repr

/-- Call `Vote.objects.create(...)`: inserts the row and commits (Django
autocommit; `views.vote` opens no enclosing transaction). -/
def voteInsert (db : DB) (v : Vote) : DB :=
  { db with votes := v :: db.votes }

/-- Statements `selected_choice.votes += 1; selected_choice.save()`: a second,
separately committed write updating the row with the given primary key. -/
def choiceIncrSave (db : DB) (cid : Nat) : DB :=
  { db with
    choices := db.choices.map (fun c =>
      if c.id = cid then { c with votes := c.votes + 1 } else c) }

/-- Function `views.vote(request, question_id)`, as a transformer of the store
returning the new store and the response outcome.  Branches, in source
order:
1. `get_object_or_404(Question, pk=question_id)` — missing question is a 404;
2. `if not question.is_active(): ...` — closed voting redirects to the index;
3. `if not request.user.is_authenticated: ...` — redirect to login;
4. `question.choice_set.get(pk=request.POST['choice'])` — a missing POST key
   (`none`) or a pk not among this question's choices re-renders the form;
5. `Vote.objects.create(...)` — raises IntegrityError exactly when a row
   with the same (user, question) already exists (`unique_together`), in
   which case nothing is written and the user is redirected to the results
   page; otherwise the row is inserted and the chosen choice's tally is
   incremented by a second write. -/
def castVote (db : DB) (userId questionId : Nat) (choicePost : Option Nat)
    (now : Nat) (isAuth : Bool) : DB × VoteOutcome :=
  match db.questions.find? (fun q => q.id == questionId) with
  | none => (db, .notFound)
  | some question =>
    if question.is_active now then
      if isAuth then
        match choicePost with
        | none => (db, .invalidChoice)
        | some pk =>
          match (choice_set db question.id).find? (fun c => c.id == pk) with
          | none => (db, .invalidChoice)
          | some selected =>
            if db.votes.any (fun v => v.user == userId && v.question == question.id) then
              (db, .alreadyVoted)
            else
              (choiceIncrSave
                 (voteInsert db { user := userId, question := question.id, choice := selected.id })
                 selected.id,
               .success)
      else (db, .unauthenticated)
    else (db, .votingClosed)

/-- Rounding to one decimal place, as in `round(x, 1)`. -/
def roundTenth (x : ℚ) : ℚ := (round (x * 10) : ℤ) / 10

/-- Total `total_votes = sum(choice.votes for choice in self.object.choice_set.all())`
in `ResultsView.get_context_data`. -/
def totalVotesOf (db : DB) (qid : Nat) : Int :=
  ((choice_set db qid).map Choice.votes).sum

/-- The `results` list built by `ResultsView.get_context_data`: one
`{'choice': choice, 'percent': percent}` entry per choice, in `choice_set`
order, with
`percent = round((choice.votes / total_votes) * 100, 1) if total_votes > 0 else 0`. -/
def ResultsView_results (db : DB) (qid : Nat) : List (Choice × ℚ) :=
  (choice_set db qid).map (fun c =>
    (c, if 0 < totalVotesOf db qid
        then roundTenth (((c.votes : ℚ) / (totalVotesOf db qid : ℚ)) * 100)
        else 0))

/-- View queryset `DetailView.get_queryset`: `Question.objects.all()` — no activity filter. -/
def DetailView_get_queryset (db : DB) : List Question := db.questions

/-- The detail page's object lookup: the question with the requested pk,
taken from `DetailView.get_queryset`. -/
def detailViewGet (db : DB) (pk : Nat) : Option Question :=
  (DetailView_get_queryset db).find? (fun q => q.id == pk)

/-- The results page's object lookup: `ResultsView` declares `model =
Question` with no `get_queryset` override, so the default queryset is all
questions — again no activity filter. -/
def resultsViewGet (db : DB) (pk : Nat) : Option Question :=
  db.questions.find? (fun q => q.id == pk)

/-- The whitespace stripping Django's `CharField` performs while cleaning
(`strip=True` is the default): drop whitespace from both ends.  Defined on
the character list so that it evaluates inside the kernel. -/
def stripText (s : String) : String :=
  ⟨((s.data.dropWhile Char.isWhitespace).reverse.dropWhile Char.isWhitespace).reverse⟩

/-- Form save `QuestionCreateForm.save`: saves the new question, then loops
`for i in range(1, 4)` over `cleaned_data.get(f'choice{i}')` and creates a
`Choice` for each truthy (non-empty) cleaned text, in field order.  The
cleaned value of a `CharField` is the submitted text with surrounding
whitespace stripped (`stripText`).  Fresh rows get ids `cidBase`,
`cidBase+1`, ... in creation order. -/
def QuestionCreateForm_save (db : DB) (qid : Nat) (qtext : String)
    (lifespan : Nat) (now : Nat) (cidBase : Nat) (c1 c2 c3 : String) : DB :=
  let question : Question :=
    { id := qid, question_text := qtext, pub_date := now, lifespan_days := lifespan }
  let addChoice := fun (cs : List Choice) (t : String) =>
    if t ≠ "" then
      cs ++ [{ id := cidBase + cs.length, question := qid, choice_text := t, votes := 0 }]
    else cs
  let cs := addChoice (addChoice (addChoice [] (stripText c1)) (stripText c2)) (stripText c3)
  { db with questions := db.questions ++ [question], choices := db.choices ++ cs }

/-- The slice of state `views.profile_delete` touches: the user table and
the profile table (a profile row is keyed by its owner's user id,
`OneToOneField`). -/
structure AccountState where
  users : List Nat
  profiles : List Nat
deriving DecidableEq, Repr

/-- View `views.profile_delete` (POST branch):
`try: user.profile.delete() except UserProfile.DoesNotExist: pass` followed
by `user.delete()`.  A missing profile row is swallowed by the `except`;
the account row is then deleted unconditionally.  The returned flag is the
success of the operation (this path always redirects with a success
message). -/
def profile_delete (s : AccountState) (u : Nat) : AccountState × Bool :=
  let s1 :=
    if u ∈ s.profiles then { s with profiles := s.profiles.filter (fun p => p ≠ u) }
    else s
  let s2 := { s1 with users := s1.users.filter (fun x => x ≠ u) }
  (s2, true)

/-- No two `Vote` rows agree on both `user` and `question` — the
`unique_together ('user', 'question')` table invariant. -/
def uniqueVotes (db : DB) : Prop :=
  db.votes.Pairwise (fun a b => ¬ (a.user = b.user ∧ a.question = b.question))

/-- States reachable from a vote-free store by any sequence of
`views.vote` requests (any user, question, posted choice, time and
authentication status). -/
inductive ReachableVote : DB → Prop where
  | init (db : DB) : db.votes = [] → ReachableVote db
  | step (db : DB) (u qid : Nat) (cpk : Option Nat) (now : Nat) (auth : Bool) :
      ReachableVote db → ReachableVote (castVote db u qid cpk now auth).1

/-! ## Sample data used by witnesses -/

/-- A sample question published at time 0 with the default 7-day lifespan. -/
def wQ : Question := { id := 1, question_text := "Q", pub_date := 0, lifespan_days := 7 }

/-- A sample choice of `wQ`. -/
def wCA : Choice := { id := 10, question := 1, choice_text := "A", votes := 0 }

/-- A second sample choice of `wQ`. -/
def wCB : Choice := { id := 11, question := 1, choice_text := "B", votes := 0 }

/-- A sample store with one active question, two choices and no votes. -/
def wDB : DB := { questions := [wQ], choices := [wCA, wCB], votes := [] }

/-- A sample store whose two choices carry 1 and 2 votes. -/
def wRDB : DB :=
  { questions := [wQ],
    choices := [{ wCA with votes := 1 }, { wCB with votes := 2 }],
    votes := [{ user := 5, question := 1, choice := 10 }] }

/-! ## Helper lemmas -/

/-- Membership in the public listing: the sort is a permutation of the
filtered table, so a question is listed iff it is stored and satisfies the
database-evaluated `where` clause. -/
theorem mem_IndexView_get_queryset {db : DB} {now : Nat} {q : Question} :
    q ∈ IndexView_get_queryset db now ↔ q ∈ db.questions ∧ dbActiveWhere q now = true := by
  unfold IndexView_get_queryset
  rw [List.mem_insertionSort, List.mem_filter]

/-- The database `where` clause only keeps questions that the pure predicate
`Question.is_active` accepts: a strictly larger second-truncated expiry
forces `now ≤ expiry q`. -/
theorem dbActiveWhere_implies_is_active {q : Question} {now : Nat}
    (h : dbActiveWhere q now = true) : q.is_active now = true := by
  unfold dbActiveWhere expiry at h
  unfold Question.is_active
  rw [decide_eq_true_iff] at h ⊢
  by_contra hlt
  push_neg at hlt
  exact absurd h (Nat.not_lt.mpr (Nat.div_le_div_right (Nat.le_of_lt hlt)))

/-- Shape lemma: `castVote` either leaves the vote table unchanged, or prepends a single
row for the requesting user after the storage constraint found no existing
(user, question) row. -/
theorem castVote_votes_shape (db : DB) (u qid : Nat) (cpk : Option Nat)
    (now : Nat) (auth : Bool) :
    (castVote db u qid cpk now auth).1.votes = db.votes ∨
    ∃ q c : Nat,
      (castVote db u qid cpk now auth).1.votes =
        { user := u, question := q, choice := c } :: db.votes ∧
      db.votes.any (fun v => v.user == u && v.question == q) = false := by
  unfold castVote
  split
  · exact Or.inl rfl
  · split
    · split
      · split
        · exact Or.inl rfl
        · split
          · exact Or.inl rfl
          · split
            · exact Or.inl rfl
            · next hany =>
              exact Or.inr ⟨_, _, rfl, Bool.eq_false_iff.mpr hany⟩
      · exact Or.inl rfl
    · exact Or.inl rfl

/-- One `views.vote` request preserves the (user, question) uniqueness
invariant: the only branch that writes a `Vote` row is guarded by the
storage constraint's existence check. -/
theorem castVote_preserves_uniqueVotes (db : DB) (u qid : Nat) (cpk : Option Nat)
    (now : Nat) (auth : Bool) (h : uniqueVotes db) :
    uniqueVotes (castVote db u qid cpk now auth).1 := by
  rcases castVote_votes_shape db u qid cpk now auth with heq | ⟨q, c, heq, hany⟩
  · unfold uniqueVotes
    rw [heq]
    exact h
  · unfold uniqueVotes
    rw [heq, List.pairwise_cons]
    refine ⟨?_, h⟩
    intro w hw hclash
    have hfail := List.any_eq_false.mp hany w hw
    apply hfail
    simp only [Bool.and_eq_true, beq_iff_eq]
    exact ⟨hclash.1.symm, hclash.2.symm⟩

/-- A sample expired question: published at 0 with a 7-day lifespan,
viewed at 8 days. -/
def wEQ : Question := { id := 3, question_text := "Old", pub_date := 0, lifespan_days := 7 }

/-- A sample store holding only the expired question `wEQ` and one choice. -/
def wEDB : DB :=
  { questions := [wEQ],
    choices := [{ id := 30, question := 3, choice_text := "X", votes := 0 }],
    votes := [] }

/-- A sample account state: users 1 and 2, only user 2 has a profile row. -/
def wAS : AccountState := { users := [1, 2], profiles := [2] }

/-- The results list pairs exactly the question's choices, in stored
(insertion) order. -/
theorem resultsMapFst (db : DB) (qid : Nat) :
    (ResultsView_results db qid).map Prod.fst = choice_set db qid := by
  unfold ResultsView_results
  generalize choice_set db qid = l
  induction l with
  | nil => rfl
  | cons a l ih => simpa using ih

/-! ## Claim theorems -/

/-- C1: in every state reachable from a vote-free store by any sequence of
`views.vote` requests, at most one `Vote` row exists per (user, question)
pair — the insert is guarded by the storage-level `unique_together`
constraint, so a second attempt by the same user on the same question never
creates a second row. -/
theorem vote_unique_per_user_question (db : DB) (h : ReachableVote db) :
    uniqueVotes db := by
  induction h with
  | init db h0 =>
    unfold uniqueVotes
    rw [h0]
    exact List.Pairwise.nil
  | step db u qid cpk now auth _ ih =>
    exact castVote_preserves_uniqueVotes db u qid cpk now auth ih

/-- C1 witness: the invariant at the concrete state reached from the empty
store by one vote from user 5 followed by a repeat attempt by user 5. -/
theorem vote_unique_per_user_question_witness :
    uniqueVotes (castVote (castVote wDB 5 1 (some 10) 3 true).1 5 1 (some 11) 3 true).1 :=
  vote_unique_per_user_question _
    (ReachableVote.step _ 5 1 (some 11) 3 true
      (ReachableVote.step _ 5 1 (some 10) 3 true (ReachableVote.init _ rfl)))

/-- C5: predicate `Question.is_active q now` holds iff
`now ≤ pub_date + lifespan_days` days; at exactly the boundary the question
is still active, and one second later it is not. -/
theorem is_active_boundary_spec :
    (∀ (q : Question) (now : Nat),
        q.is_active now = true ↔ now ≤ q.pub_date + q.lifespan_days * usPerDay) ∧
    (∀ q : Question,
        q.is_active (q.pub_date + q.lifespan_days * usPerDay) = true) ∧
    (∀ q : Question,
        q.is_active (q.pub_date + q.lifespan_days * usPerDay + usPerSec) = false) := by
  refine ⟨fun q now => ?_, fun q => ?_, fun q => ?_⟩ <;>
    simp [Question.is_active]

/-- C6 counterexample: at exactly the lifespan boundary (question published
at 0 with a 7-day lifespan, queried at 7 days), the pure predicate
`is_active` accepts the stored question but the database-evaluated listing
filter rejects it, so the listing omits an active question. -/
theorem listing_excludes_boundary_active :
    Question.is_active wQ (7 * usPerDay) = true ∧
    wQ ∈ wDB.questions ∧
    dbActiveWhere wQ (7 * usPerDay) = false ∧
    wQ ∉ IndexView_get_queryset wDB (7 * usPerDay) := by decide

/-- C6 amended: the listing returns exactly the stored questions whose
second-truncated expiry strictly exceeds the second-truncated current time;
every listed question is active per `is_active`, but the converse fails at
the boundary (the SQL comparison is strict and truncates to whole seconds,
while `is_active` is non-strict at microsecond precision). -/
theorem listing_strict_second_filter (db : DB) (now : Nat) (q : Question) :
    (q ∈ IndexView_get_queryset db now ↔
      q ∈ db.questions ∧ now / usPerSec < expiry q / usPerSec) ∧
    (dbActiveWhere q now = true → q.is_active now = true) := by
  constructor
  · rw [mem_IndexView_get_queryset]
    unfold dbActiveWhere
    rw [decide_eq_true_iff]
  · exact dbActiveWhere_implies_is_active

/-- C6 witness: the amended characterisation instantiated at the sample
store well inside the lifespan. -/
theorem listing_strict_second_filter_witness :
    (wQ ∈ IndexView_get_queryset wDB 3 ↔
      wQ ∈ wDB.questions ∧ 3 / usPerSec < expiry wQ / usPerSec) ∧
    Question.is_active wQ 3 = true :=
  ⟨(listing_strict_second_filter wDB 3 wQ).1,
   (listing_strict_second_filter wDB 3 wQ).2 (by decide)⟩

/-- C2: the success path of `views.vote` is two separately committed writes
(`Vote.objects.create`, then `selected_choice.save()`) with no enclosing
transaction: evaluated at a concrete store, the state committed by the first
write already contains the new `Vote` row while every tally is unchanged, so
a failure of the second write leaves an orphan vote with no rollback. -/
theorem vote_insert_commits_before_increment :
    castVote wDB 5 1 (some 10) 3 true =
      (choiceIncrSave (voteInsert wDB { user := 5, question := 1, choice := 10 }) 10,
       VoteOutcome.success) ∧
    { user := 5, question := 1, choice := 10 }
      ∈ (voteInsert wDB { user := 5, question := 1, choice := 10 }).votes ∧
    (voteInsert wDB { user := 5, question := 1, choice := 10 }).choices = wDB.choices := by
  decide

/-- C3: a successful `views.vote` call changes the store by exactly one new
`Vote` row and one increment of the selected choice's tally; the question
table is untouched, the choice table keeps its size, every choice with a
different primary key is carried over unchanged, and the selected choice
reappears with `votes` exactly one greater. -/
theorem castVote_success_frame (db db2 : DB) (u qid pk now : Nat) (c : Choice)
    (h : castVote db u qid (some pk) now true = (db2, VoteOutcome.success)) :
    db2.questions = db.questions ∧
    db2.votes = { user := u, question := qid, choice := pk } :: db.votes ∧
    db2.choices.length = db.choices.length ∧
    (c ∈ db.choices → c.id ≠ pk → c ∈ db2.choices) ∧
    (c ∈ db2.choices → c.id ≠ pk → c ∈ db.choices) ∧
    (c ∈ db.choices → c.id = pk → { c with votes := c.votes + 1 } ∈ db2.choices) := by
  unfold castVote at h
  split at h
  · exact VoteOutcome.noConfusion (congrArg Prod.snd h)
  next question hq =>
    split at h
    case' isFalse => exact VoteOutcome.noConfusion (congrArg Prod.snd h)
    split at h
    case' isFalse => exact VoteOutcome.noConfusion (congrArg Prod.snd h)
    split at h
    · exact VoteOutcome.noConfusion (congrArg Prod.snd h)
    next pk2 hpk2 =>
      obtain rfl : pk = pk2 := by
        injection hpk2
      split at h
      · exact VoteOutcome.noConfusion (congrArg Prod.snd h)
      next selected hc =>
        split at h
        · exact VoteOutcome.noConfusion (congrArg Prod.snd h)
        next hany =>
          injection h with hdb hout
          subst hdb
          have hqid : question.id = qid := by
            have := List.find?_some hq
            simpa using this
          have hsel : selected.id = pk := by
            have := List.find?_some hc
            simpa using this
          refine ⟨rfl, ?_, ?_, ?_, ?_, ?_⟩
          · simp [choiceIncrSave, voteInsert, hqid, hsel]
          · simp [choiceIncrSave, voteInsert]
          · intro hmem hne
            refine List.mem_map.mpr ⟨c, hmem, ?_⟩
            rw [if_neg]
            rw [hsel]
            exact hne
          · intro hmem hne
            rcases List.mem_map.mp hmem with ⟨x, hx, hfx⟩
            by_cases hxid : x.id = selected.id
            · exfalso
              apply hne
              rw [← hfx]
              simp [hxid, hsel]
            · rw [← hfx, if_neg hxid]
              exact hx
          · intro hmem hid
            refine List.mem_map.mpr ⟨c, hmem, ?_⟩
            rw [if_pos]
            exact hid.trans hsel.symm

/-- C3 witness: the frame property at the sample store, user 5 voting for
choice 10 of question 1, checked against choice 11. -/
theorem castVote_success_frame_witness :
    (castVote wDB 5 1 (some 10) 3 true).1.questions = wDB.questions ∧
    (castVote wDB 5 1 (some 10) 3 true).1.votes =
      { user := 5, question := 1, choice := 10 } :: wDB.votes ∧
    (castVote wDB 5 1 (some 10) 3 true).1.choices.length = wDB.choices.length ∧
    (wCB ∈ wDB.choices → wCB.id ≠ 10 → wCB ∈ (castVote wDB 5 1 (some 10) 3 true).1.choices) ∧
    (wCB ∈ (castVote wDB 5 1 (some 10) 3 true).1.choices → wCB.id ≠ 10 → wCB ∈ wDB.choices) ∧
    (wCB ∈ wDB.choices → wCB.id = 10 →
      { wCB with votes := wCB.votes + 1 } ∈ (castVote wDB 5 1 (some 10) 3 true).1.choices) :=
  castVote_success_frame wDB _ 5 1 10 3 wCB (by decide)

/-- C4 counterexample: two stores identical except for which choice the
existing `Vote` of user 5 records (choice 10 versus 11).  The repeat vote
attempt returns the same `alreadyVoted` outcome on both — the fixed warning
and redirect to the results page — so the response does not yield the
existing vote's choice. -/
theorem alreadyVoted_outcome_ignores_choice :
    ({ wDB with votes := [{ user := 5, question := 1, choice := 10 }] } : DB).votes ≠
      ({ wDB with votes := [{ user := 5, question := 1, choice := 11 }] } : DB).votes ∧
    castVote { wDB with votes := [{ user := 5, question := 1, choice := 10 }] } 5 1 (some 10) 3 true =
      ({ wDB with votes := [{ user := 5, question := 1, choice := 10 }] }, VoteOutcome.alreadyVoted) ∧
    castVote { wDB with votes := [{ user := 5, question := 1, choice := 11 }] } 5 1 (some 10) 3 true =
      ({ wDB with votes := [{ user := 5, question := 1, choice := 11 }] }, VoteOutcome.alreadyVoted) ∧
    (castVote { wDB with votes := [{ user := 5, question := 1, choice := 10 }] } 5 1 (some 10) 3 true).2 =
      (castVote { wDB with votes := [{ user := 5, question := 1, choice := 11 }] } 5 1 (some 10) 3 true).2 := by
  decide

/-- C4 amended: when the requesting user already has a `Vote` for the
question (question present, active, authenticated, valid choice), the call
returns the store unchanged with the `alreadyVoted` outcome — no row added,
no tally changed, so a retry is a no-op; the outcome is the fixed warning
plus redirect and carries no information about the existing vote's choice. -/
theorem alreadyVoted_no_mutation (db : DB) (u qid pk now : Nat) (question : Question)
    (hq : db.questions.find? (fun t => t.id == qid) = some question)
    (hact : question.is_active now = true)
    (hc : ((choice_set db question.id).find? (fun c => c.id == pk)).isSome = true)
    (hv : db.votes.any (fun v => v.user == u && v.question == question.id) = true) :
    castVote db u qid (some pk) now true = (db, VoteOutcome.alreadyVoted) := by
  unfold castVote
  rw [hq]
  rcases Option.isSome_iff_exists.mp hc with ⟨selected, hsel⟩
  simp [hact, hsel, hv]

/-- C4 witness: the amended property at a concrete store where user 5
already voted for choice 10 of the active question 1. -/
theorem alreadyVoted_no_mutation_witness :
    castVote { wDB with votes := [{ user := 5, question := 1, choice := 10 }] }
        5 1 (some 10) 3 true =
      ({ wDB with votes := [{ user := 5, question := 1, choice := 10 }] },
       VoteOutcome.alreadyVoted) :=
  alreadyVoted_no_mutation _ 5 1 10 3 wQ (by decide) (by decide) (by decide) (by decide)

/-- C7: the results computation yields one (choice, percent) pair per
choice of the question, preserving stored order; when the vote total is 0
every percent is 0 (no division is attempted), and when the total is
positive each pair carries
`round(votes / total * 100, 1 decimal)` for its own choice.  The
computation reads the store and builds a list; it writes nothing. -/
theorem results_percent_spec (db : DB) (qid : Nat) (p : Choice × ℚ) :
    (ResultsView_results db qid).map Prod.fst = choice_set db qid ∧
    (totalVotesOf db qid = 0 → p ∈ ResultsView_results db qid → p.2 = 0) ∧
    (0 < totalVotesOf db qid → p ∈ ResultsView_results db qid →
      p.2 = roundTenth (((p.1.votes : ℚ) / (totalVotesOf db qid : ℚ)) * 100)) := by
  refine ⟨resultsMapFst db qid, ?_, ?_⟩
  · intro h0 hp
    unfold ResultsView_results at hp
    rcases List.mem_map.mp hp with ⟨cc, hcc, rfl⟩
    simp [h0]
  · intro hpos hp
    unfold ResultsView_results at hp
    rcases List.mem_map.mp hp with ⟨cc, hcc, rfl⟩
    simp [hpos]

/-- C7 witness: order preservation at the vote-free sample store; a zero
percent for choice 10 there (total 0); and the rounded percent 33.3 for the
1-vote choice at the store with totals 1 and 2 (total 3). -/
theorem results_percent_spec_witness :
    (ResultsView_results wDB 1).map Prod.fst = choice_set wDB 1 ∧
    ((wCA, (0 : ℚ)) : Choice × ℚ).2 = 0 ∧
    (({ wCA with votes := 1 }, (333 : ℚ)/10) : Choice × ℚ).2 =
      roundTenth ((((({ wCA with votes := 1 } : Choice).votes : ℚ)) /
        (totalVotesOf wRDB 1 : ℚ)) * 100) :=
  ⟨(results_percent_spec wDB 1 (wCA, 0)).1,
   (results_percent_spec wDB 1 (wCA, 0)).2.1 (by decide)
     (by norm_num [ResultsView_results, choice_set, totalVotesOf, wDB, wCA, wCB, wQ]),
   (results_percent_spec wRDB 1 ({ wCA with votes := 1 }, (333 : ℚ)/10)).2.2 (by decide)
     (by norm_num [ResultsView_results, choice_set, totalVotesOf, roundTenth, round_eq,
           wRDB, wCA, wCB, wQ])⟩

/-- C8: form save `QuestionCreateForm.save` stores the new question and creates one
`Choice` per non-blank supplied text, in supplied order, each starting at 0
votes; blank texts (empty after the form's whitespace stripping) are
silently skipped. -/
theorem create_question_choices_spec (db : DB) (qid : Nat) (qtext : String)
    (lifespan now cidBase : Nat) (c1 c2 c3 : String) (c : Choice)
    (h : db.choices.all (fun x => x.question != qid) = true) :
    (choice_set (QuestionCreateForm_save db qid qtext lifespan now cidBase c1 c2 c3) qid).map
        Choice.choice_text =
      ([c1, c2, c3].map stripText).filter (fun t => t ≠ "") ∧
    ({ id := qid, question_text := qtext, pub_date := now, lifespan_days := lifespan } : Question)
      ∈ (QuestionCreateForm_save db qid qtext lifespan now cidBase c1 c2 c3).questions ∧
    (c ∈ choice_set (QuestionCreateForm_save db qid qtext lifespan now cidBase c1 c2 c3) qid →
      c.votes = 0) := by
  have hfilter : db.choices.filter (fun x => x.question == qid) = [] := by
    rw [List.filter_eq_nil_iff]
    intro a ha
    have := List.all_eq_true.mp h a ha
    simpa using this
  refine ⟨?_, ?_, ?_⟩
  · unfold QuestionCreateForm_save choice_set
    simp only [List.filter_append, hfilter, List.nil_append]
    by_cases h1 : stripText c1 = "" <;> by_cases h2 : stripText c2 = "" <;> by_cases h3 : stripText c3 = "" <;>
      simp [h1, h2, h3, List.filter]
  · unfold QuestionCreateForm_save
    simp
  · intro hc
    unfold QuestionCreateForm_save choice_set at hc
    simp only [List.filter_append, hfilter, List.nil_append] at hc
    by_cases h1 : stripText c1 = "" <;> by_cases h2 : stripText c2 = "" <;> by_cases h3 : stripText c3 = "" <;>
      simp [h1, h2, h3, List.filter] at hc <;>
      rcases hc with rfl | rfl | rfl <;> rfl

/-- C8 witness: the spec scenario — initial texts "Red", "", "Blue" create
exactly the two choices "Red" then "Blue" for the new question. -/
theorem create_question_choices_spec_witness :
    (["Red", "", "Blue"].map stripText).filter (fun t => t ≠ "") = ["Red", "Blue"] ∧
    (choice_set (QuestionCreateForm_save wDB 2 "Color?" 3 5 100 "Red" "" "Blue") 2).map
        Choice.choice_text =
      (["Red", "", "Blue"].map stripText).filter (fun t => t ≠ "") ∧
    ({ id := 2, question_text := "Color?", pub_date := 5, lifespan_days := 3 } : Question)
      ∈ (QuestionCreateForm_save wDB 2 "Color?" 3 5 100 "Red" "" "Blue").questions :=
  ⟨by decide,
   (create_question_choices_spec wDB 2 "Color?" 3 5 100 "Red" "" "Blue" wCA (by decide)).1,
   (create_question_choices_spec wDB 2 "Color?" 3 5 100 "Red" "" "Blue" wCA (by decide)).2.1⟩

/-- C9: view `views.profile_delete` deletes the profile row (if any) and then
the account row; it reports success and removes the account even when no
profile row exists — the missing profile is swallowed, leaving the profile
table untouched, so the delete is idempotent with respect to the profile. -/
theorem profile_delete_spec (s : AccountState) (u : Nat) :
    (profile_delete s u).2 = true ∧
    u ∉ (profile_delete s u).1.users ∧
    u ∉ (profile_delete s u).1.profiles ∧
    (u ∉ s.profiles →
      (profile_delete s u).1 =
        { users := s.users.filter (fun x => x ≠ u), profiles := s.profiles }) := by
  unfold profile_delete
  by_cases hp : u ∈ s.profiles <;> simp [hp, List.mem_filter]

/-- C9 witness: deleting user 1, who has no profile row, from the sample
account state succeeds and removes the account while leaving the profile
table unchanged. -/
theorem profile_delete_spec_witness :
    (profile_delete wAS 1).2 = true ∧
    1 ∉ (profile_delete wAS 1).1.users ∧
    1 ∉ (profile_delete wAS 1).1.profiles ∧
    (profile_delete wAS 1).1 =
      { users := wAS.users.filter (fun x => x ≠ 1), profiles := wAS.profiles } :=
  ⟨(profile_delete_spec wAS 1).1,
   (profile_delete_spec wAS 1).2.1,
   (profile_delete_spec wAS 1).2.2.1,
   (profile_delete_spec wAS 1).2.2.2 (by decide)⟩

/-- C10: an expired question (inactive at `now`) is still served by the
detail and results pages — both query all questions with no activity
filter — and its results data is computed as usual; expiry only hides the
question from the public listing and makes voting fail with the
voting-closed outcome. -/
theorem expired_detail_results_accessible (db : DB) (u pk now : Nat)
    (cpk : Option Nat) (auth : Bool) (q : Question)
    (hq : db.questions.find? (fun t => t.id == pk) = some q)
    (hact : q.is_active now = false) :
    detailViewGet db pk = some q ∧
    resultsViewGet db pk = some q ∧
    (ResultsView_results db pk).map Prod.fst = choice_set db pk ∧
    q ∉ IndexView_get_queryset db now ∧
    castVote db u pk cpk now auth = (db, VoteOutcome.votingClosed) := by
  refine ⟨hq, hq, resultsMapFst db pk, ?_, ?_⟩
  · intro hmem
    rcases mem_IndexView_get_queryset.mp hmem with ⟨-, hwhere⟩
    rw [dbActiveWhere_implies_is_active hwhere] at hact
    exact Bool.noConfusion hact
  · unfold castVote
    rw [hq]
    simp [hact]

/-- C10 witness: the expired sample question at 8 days is still found by
the detail and results lookups, is absent from the listing, and a vote
attempt on it is rejected as closed without touching the store. -/
theorem expired_detail_results_accessible_witness :
    detailViewGet wEDB 3 = some wEQ ∧
    resultsViewGet wEDB 3 = some wEQ ∧
    (ResultsView_results wEDB 3).map Prod.fst = choice_set wEDB 3 ∧
    wEQ ∉ IndexView_get_queryset wEDB (8 * usPerDay) ∧
    castVote wEDB 9 3 (some 30) (8 * usPerDay) true = (wEDB, VoteOutcome.votingClosed) :=
  expired_detail_results_accessible wEDB 9 3 (8 * usPerDay) (some 30) true wEQ
    (by decide) (by decide)

end Polls
